import Mathlib

/-!
Verification development for the polybot repository: the account-link
challenge-response protocol, the deterministic trade validator, the
idempotent trade-request assembler, the in-memory spend ledger and the
user-account trader, embedded shallowly as executable Lean definitions.

JavaScript Map objects are modelled as association lists with the usual
Map.set semantics: set replaces the value of the first matching key in
place, otherwise appends; get returns the first match; delete removes the
matching entry.
-/

namespace Polybot

/-- Map.set semantics over an association list: replace the first entry
with the given key, otherwise append a fresh entry at the end. -/
def setA {V : Type} (k : String) (v : V) : List (String × V) → List (String × V)
  | [] => [(k, v)]
  | (k2, v2) :: rest => if k2 = k then (k, v) :: rest else (k2, v2) :: setA k v rest

/-- Map.get semantics: the value of the first entry with the given key. -/
def getA {V : Type} (k : String) : List (String × V) → Option V
  | [] => none
  | (k2, v2) :: rest => if k2 = k then some v2 else getA k rest

/-- Map.delete semantics: drop every entry with the given key (keys are
unique in a well-formed Map state, so at most one entry is dropped). -/
def delA {V : Type} (k : String) : List (String × V) → List (String × V)
  | [] => []
  | (k2, v2) :: rest => if k2 = k then delA k rest else (k2, v2) :: delA k rest

/-- Number of entries carrying the given key. -/
def countKey {V : Type} (k : String) : List (String × V) → Nat
  | [] => 0
  | (k2, _) :: rest => (if k2 = k then 1 else 0) + countKey k rest

theorem getA_setA_self {V : Type} (k : String) (v : V) (m : List (String × V)) :
    getA k (setA k v m) = some v := by
  induction m with
  | nil => simp [setA, getA]
  | cons hd tl ih =>
    obtain ⟨k2, v2⟩ := hd
    by_cases h : k2 = k <;> simp [setA, getA, h, ih]

theorem getA_setA_ne {V : Type} (k k2 : String) (v : V) (m : List (String × V))
    (h : k2 ≠ k) : getA k2 (setA k v m) = getA k2 m := by
  induction m with
  | nil => simp [setA, getA, Ne.symm h]
  | cons hd tl ih =>
    obtain ⟨k3, v3⟩ := hd
    by_cases h3 : k3 = k
    · subst h3
      simp [setA, getA, Ne.symm h]
    · by_cases h4 : k3 = k2
      · subst h4
        simp [setA, getA, h3]
      · simp [setA, getA, h3, h4, ih]

theorem setA_setA_same {V : Type} (k : String) (v : V) (m : List (String × V)) :
    setA k v (setA k v m) = setA k v m := by
  induction m with
  | nil => simp [setA]
  | cons hd tl ih =>
    obtain ⟨k2, v2⟩ := hd
    by_cases h : k2 = k <;> simp [setA, h, ih]

theorem countKey_setA_ne {V : Type} (k k2 : String) (v : V) (m : List (String × V))
    (h : k2 ≠ k) : countKey k2 (setA k v m) = countKey k2 m := by
  induction m with
  | nil => simp [setA, countKey, Ne.symm h]
  | cons hd tl ih =>
    obtain ⟨k3, v3⟩ := hd
    by_cases h3 : k3 = k
    · subst h3
      simp [setA, countKey, Ne.symm h]
    · simp [setA, countKey, h3, ih]

theorem countKey_setA_self {V : Type} (k : String) (v : V) (m : List (String × V))
    (h : countKey k m ≤ 1) : countKey k (setA k v m) = 1 := by
  induction m with
  | nil => simp [setA, countKey]
  | cons hd tl ih =>
    obtain ⟨k3, v3⟩ := hd
    by_cases h3 : k3 = k
    · subst h3
      have h2 : countKey k3 tl = 0 := by
        simp [countKey] at h
        omega
      simp [setA, countKey, h2]
    · have h2 : countKey k tl ≤ 1 := by
        simp [countKey, h3] at h
        exact h
      simp [setA, countKey, h3, ih h2]

theorem countKey_delA {V : Type} (k k2 : String) (m : List (String × V)) :
    countKey k2 (delA k m) = if k2 = k then 0 else countKey k2 m := by
  induction m with
  | nil => simp [delA, countKey]
  | cons hd tl ih =>
    obtain ⟨k3, v3⟩ := hd
    by_cases h2 : k2 = k
    · subst h2
      by_cases h3 : k3 = k2
      · subst h3
        simp [delA, countKey, ih]
      · simp [delA, countKey, ih, h3]
    · by_cases h3 : k3 = k
      · subst h3
        simp [delA, countKey, ih, h2, Ne.symm h2]
      · by_cases h4 : k3 = k2
        · subst h4
          simp [delA, countKey, ih, h2, h3]
        · simp [delA, countKey, ih, h2, h3, h4]

theorem getA_filter_keep {V : Type} (k : String) (p : String × V → Bool)
    (m : List (String × V)) (h : ∀ v, p (k, v) = true) :
    getA k (m.filter p) = getA k m := by
  induction m with
  | nil => simp [getA]
  | cons hd tl ih =>
    obtain ⟨k2, v2⟩ := hd
    by_cases h2 : k2 = k
    · subst h2
      simp [List.filter, h v2, getA]
    · cases hp : p (k2, v2) <;> simp [List.filter, hp, getA, h2, ih]

/-- Challenge record, from the AccountLinkChallenge shape used by
src/src/wire.ts (identity, nonce, issue and expiry instants, used flag). -/
structure AccountLinkChallenge where
  discordUserId : String
  nonce : String
  issuedAtMs : Nat
  expiresAtMs : Nat
  used : Bool
deriving DecidableEq, Repr

/-- State of InMemoryAccountLinkChallengeStore (src/src/wire.ts, lines 27-56):
a map from Discord user id to that identity's challenge, plus a nonce to
owner index. -/
structure ChallengeStoreState where
  byDiscordUserId : List (String × AccountLinkChallenge)
  ownerByNonce : List (String × String)
deriving DecidableEq, Repr

/-- InMemoryAccountLinkChallengeStore.create: store the challenge under its
owner and index its nonce. -/
def ChallengeStoreState.create (s : ChallengeStoreState) (challenge : AccountLinkChallenge) :
    ChallengeStoreState where
  byDiscordUserId := setA challenge.discordUserId challenge s.byDiscordUserId
  ownerByNonce := setA challenge.nonce challenge.discordUserId s.ownerByNonce

/-- InMemoryAccountLinkChallengeStore.getActive: the challenge stored for
the identity, if any. -/
def ChallengeStoreState.getActive (s : ChallengeStoreState) (discordUserId : String) :
    Option AccountLinkChallenge :=
  getA discordUserId s.byDiscordUserId

/-- InMemoryAccountLinkChallengeStore.markUsed (src/src/wire.ts, lines
40-55): look up the owner by nonce; if the owner has a stored challenge,
overwrite it with used set to true. The source performs no check that the
stored challenge still carries the given nonce. -/
def ChallengeStoreState.markUsed (s : ChallengeStoreState) (nonce : String) :
    ChallengeStoreState :=
  match getA nonce s.ownerByNonce with
  | none => s
  | some owner =>
    match getA owner s.byDiscordUserId with
    | none => s
    | some challenge =>
      { s with byDiscordUserId := setA owner { challenge with used := true } s.byDiscordUserId }

/-- Challenge TTL of five minutes in milliseconds. -/
def CHALLENGE_TTL_MS : Nat := 5 * 60 * 1000

/-- Modelled from the spec: ChallengeService.issue (the source file
src/auth/AccountLinkChallengeService.ts is not part of the snapshot; only
its store and callers are). It builds a challenge with expiresAtMs equal
to nowMs plus five minutes, unused, and stores it through the store create
operation, replacing any prior active challenge for the identity. The
fresh random nonce is passed in as a parameter since its generation is
nondeterministic. -/
def issueChallenge (identity nonce : String) (nowMs : Nat) (s : ChallengeStoreState) :
    AccountLinkChallenge × ChallengeStoreState :=
  let challenge : AccountLinkChallenge :=
    { discordUserId := identity
      nonce := nonce
      issuedAtMs := nowMs
      expiresAtMs := nowMs + CHALLENGE_TTL_MS
      used := false }
  (challenge, s.create challenge)

/-- Modelled from the spec: ChallengeService.isValid (source file not in
the snapshot). True iff the challenge exists, its nonce equals the given
nonce, it is unused, and nowMs is at most its expiry instant. -/
def isValidChallenge : Option AccountLinkChallenge → String → Nat → Bool
  | none, _, _ => false
  | some challenge, nonce, nowMs =>
    challenge.nonce == nonce && !challenge.used && decide (nowMs ≤ challenge.expiresAtMs)

/-- Result of a verification attempt. -/
inductive VerifyLinkResult where
  | linked (account : String)
  | challengeInvalid
  | signatureMismatch
deriving DecidableEq, Repr

/-- Modelled from the spec: AccountLinkVerificationService.verifyLink
(source file src/auth/AccountLinkVerificationService.ts is not in the
snapshot; only its caller handleVerify is). Steps of section 4.4: fetch
the active challenge and fail CHALLENGE_INVALID if it is not valid, with
no mutation; rebuild the signed message from the stored challenge and
recover the signer; fail SIGNATURE_MISMATCH with no mutation if the
recovered signer does not case-insensitively equal the claimed account;
only on success call markUsed on the store. The signature recovery
function and the signed-message builder are abstract parameters. -/
def verifyLink (recover : String → String → Option String)
    (buildMsg : AccountLinkChallenge → String)
    (identity nonce claimedAccount signature : String) (nowMs : Nat)
    (s : ChallengeStoreState) : VerifyLinkResult × ChallengeStoreState :=
  match s.getActive identity with
  | none => (.challengeInvalid, s)
  | some challenge =>
    if !(isValidChallenge (some challenge) nonce nowMs) then (.challengeInvalid, s)
    else
      match recover (buildMsg challenge) signature with
      | none => (.signatureMismatch, s)
      | some signer =>
        if signer.toLower = claimedAccount.toLower then
          (.linked claimedAccount, s.markUsed nonce)
        else (.signatureMismatch, s)

/-- Value stored for a linked account in InMemoryAccountLinkStore. -/
structure LinkRecord where
  accountId : String
  linkedAtMs : Nat
deriving DecidableEq, Repr

/-- State of InMemoryAccountLinkStore (src/src/wire.ts, lines 58-76): a
map from Discord user id to the linked account record. -/
structure AccountLinkStoreState where
  links : List (String × LinkRecord)
deriving DecidableEq, Repr

/-- InMemoryAccountLinkStore.link: overwrite the entry for the identity. -/
def AccountLinkStoreState.link (s : AccountLinkStoreState)
    (discordUserId polymarketAccountId : String) (linkedAtMs : Nat) :
    AccountLinkStoreState where
  links := setA discordUserId ⟨polymarketAccountId, linkedAtMs⟩ s.links

/-- InMemoryAccountLinkStore.getLinkedAccount: the linked account id for
the identity, if any. -/
def AccountLinkStoreState.getLinkedAccount (s : AccountLinkStoreState)
    (discordUserId : String) : Option String :=
  (getA discordUserId s.links).map (fun r => r.accountId)

/-- InMemoryAccountLinkStore.unlink: delete the entry for the identity. -/
def AccountLinkStoreState.unlink (s : AccountLinkStoreState)
    (discordUserId : String) : AccountLinkStoreState where
  links := delA discordUserId s.links

/-- Modelled from the spec: LinkPersistenceService.persistLink (source
file src/auth/AccountLinkPersistenceService.ts is not in the snapshot).
It always overwrites any existing link for the identity through the store
link operation. -/
def persistLink (s : AccountLinkStoreState)
    (discordUserId polymarketAccountId : String) (nowMs : Nat) : AccountLinkStoreState :=
  s.link discordUserId polymarketAccountId nowMs

/-- Well-formedness of the link store: every identity has at most one
entry in the underlying map. -/
def AccountLinkStoreState.atMostOnePerIdentity (s : AccountLinkStoreState) : Prop :=
  ∀ uid : String, countKey uid s.links ≤ 1

/-- Market outcome, YES or NO. -/
inductive Outcome where
  | yes
  | no
deriving DecidableEq, Repr

/-- Market status values used by the router and read layer. -/
inductive MarketStatus where
  | active
  | paused
  | closed
deriving DecidableEq, Repr

/-- Point-in-time market snapshot handed to the validator: id and status. -/
structure MarketRef where
  id : String
  status : MarketStatus
deriving DecidableEq, Repr

/-- Untrusted AgentOutput union produced by the intent parser
(src/src/agent/intentParser.ts): one variant per supported intent, with
primitive fields only. -/
inductive AgentOutput where
  | placeBet (userId marketId : String) (outcome : Outcome) (amountCents : Int)
      (rawText : Option String)
  | getBalance (userId : String) (rawText : Option String)
  | getTradeHistory (userId : String) (limit : Option Int) (rawText : Option String)
  | queryMarket (userId : String) (marketId : Option String) (query : Option String)
      (rawText : Option String)
deriving DecidableEq, Repr

/-- Identity echoed inside an AgentOutput. -/
def AgentOutput.echoedUserId : AgentOutput → String
  | .placeBet userId _ _ _ _ => userId
  | .getBalance userId _ => userId
  | .getTradeHistory userId _ _ => userId
  | .queryMarket userId _ _ _ => userId

/-- Whether the output is the place-bet variant. -/
def AgentOutput.isPlaceBet : AgentOutput → Bool
  | .placeBet _ _ _ _ _ => true
  | _ => false

/-- Per-request validation context snapshot, from section 3 of the spec:
linked account, market lookup, and the spend window counters, plus the
minimum order size and hard per-trade ceiling named by check 4. -/
structure ValidationContext where
  linkedAccountId : Option String
  marketLookup : String → Option MarketRef
  minOrderCents : Int
  maxOrderCents : Int
  dailyLimitCents : Int
  spentTodayCents : Int
  hourlyLimitCents : Int
  spentThisHourCents : Int

/-- Validation error codes of the validator stage. -/
inductive ValidationErrorCode where
  | accountNotConnected
  | invalidMarket
  | marketNotActive
  | invalidAmount
  | limitExceeded
deriving DecidableEq, Repr

/-- A place-bet intent that passed validation. -/
structure ValidatedIntent where
  userId : String
  marketId : String
  outcome : Outcome
  amountCents : Int
deriving DecidableEq, Repr

/-- Overall validator verdict: accepted, rejected as not a place-bet
intent, or rejected with a typed error code. -/
inductive ValidationVerdict where
  | accepted (intent : ValidatedIntent)
  | rejectedNotPlaceBet
  | rejected (code : ValidationErrorCode)
deriving DecidableEq, Repr

/-- Modelled from the spec: the Validator validateAgentOutput (source file
src/backend/validateAgentOutput.ts is not in the snapshot; only its caller
DiscordMessageRouter.handleWrite is). Applies only to place-bet intents
and rejects every other variant; for place-bet it evaluates the ordered
checks of section 4.6, short-circuiting on the first failure: account
linked, market exists, market active, amount a positive integer within
the minimum order size and the per-trade ceiling, then the daily and
hourly spend limits. -/
def validateAgentOutput (out : AgentOutput) (ctx : ValidationContext) : ValidationVerdict :=
  match out with
  | .placeBet userId marketId outcome amountCents _ =>
    match ctx.linkedAccountId with
    | none => .rejected .accountNotConnected
    | some _ =>
      match ctx.marketLookup marketId with
      | none => .rejected .invalidMarket
      | some market =>
        if market.status ≠ .active then .rejected .marketNotActive
        else if amountCents ≤ 0 ∨ amountCents < ctx.minOrderCents ∨
            ctx.maxOrderCents < amountCents then .rejected .invalidAmount
        else if ctx.dailyLimitCents < ctx.spentTodayCents + amountCents ∨
            ctx.hourlyLimitCents < ctx.spentThisHourCents + amountCents then
          .rejected .limitExceeded
        else .accepted ⟨userId, marketId, outcome, amountCents⟩
  | _ => .rejectedNotPlaceBet

/-- Idempotency time-bucket width of five minutes in milliseconds. -/
def TIME_BUCKET_MS : Nat := 5 * 60 * 1000

/-- Idempotency key: a deterministic function of identity, market id,
outcome, amount and time bucket. The hash of the spec is modelled as the
tuple of its inputs, a deterministic function that the testable property
of section 8 requires to separate distinct time buckets. -/
structure IdempotencyKey where
  identity : String
  marketId : String
  outcome : Outcome
  amountCents : Int
  timeBucket : Nat
deriving DecidableEq, Repr

/-- Fully specified trade request ready for execution. -/
structure TradeRequest where
  identity : String
  marketId : String
  marketStatus : MarketStatus
  outcome : Outcome
  amountCents : Int
  idempotencyKey : IdempotencyKey
  builtAtMs : Nat
deriving DecidableEq, Repr

/-- Modelled from the spec: TradeRequestAssembler.build (source file
src/backend/buildTradeRequest.ts is not in the snapshot; only its caller
is). Computes timeBucket as the floor of nowMs divided by five minutes
and derives the idempotency key from identity, market id, outcome, amount
and the time bucket. -/
def buildTradeRequest (intent : ValidatedIntent) (identity : String)
    (market : MarketRef) (nowMs : Nat) : TradeRequest where
  identity := identity
  marketId := market.id
  marketStatus := market.status
  outcome := intent.outcome
  amountCents := intent.amountCents
  idempotencyKey :=
    { identity := identity
      marketId := market.id
      outcome := intent.outcome
      amountCents := intent.amountCents
      timeBucket := nowMs / TIME_BUCKET_MS }
  builtAtMs := nowMs

/-- Per-user daily spend limit in cents, from the in-memory spend ledger
module. -/
def DAILY_LIMIT_CENTS : Int := 500

/-- State of the in-memory spend ledger: user id to a map from UTC day
key to cents spent. The current day and the previous day are threaded as
explicit parameters in place of the wall-clock utcDateKey calls. -/
structure SpendLedger where
  ledger : List (String × List (String × Int))
deriving DecidableEq, Repr

/-- evictStaleEntries: drop every day bucket other than today and
yesterday. -/
def evictStaleEntries (today yesterday : String) (userMap : List (String × Int)) :
    List (String × Int) :=
  userMap.filter (fun kv => kv.1 == today || kv.1 == yesterday)

/-- getOrInitDay: zero with the ledger untouched when the user has no
stored map; otherwise evictStaleEntries mutates the stored user map in
place before the read, so the result pairs the today value with the
ledger now holding the evicted map. -/
def getOrInitDay (today yesterday : String) (s : SpendLedger) (discordUserId : String) :
    Int × SpendLedger :=
  match getA discordUserId s.ledger with
  | none => (0, s)
  | some userMap =>
    let evicted := evictStaleEntries today yesterday userMap
    ((getA today evicted).getD 0, ⟨setA discordUserId evicted s.ledger⟩)

/-- getSpentToday: cents the user has spent today, with the in-place
eviction side effect of the underlying read. -/
def getSpentToday (today yesterday : String) (s : SpendLedger) (discordUserId : String) :
    Int × SpendLedger :=
  getOrInitDay today yesterday s discordUserId

/-- getRemainingToday: cents the user can still spend today, clamped at
zero, with the eviction side effect of the underlying read. -/
def getRemainingToday (today yesterday : String) (s : SpendLedger)
    (discordUserId : String) : Int × SpendLedger :=
  let r := getSpentToday today yesterday s discordUserId
  (max 0 (DAILY_LIMIT_CENTS - r.1), r.2)

/-- canSpend: whether spending the amount stays within the daily limit,
with the eviction side effect of the underlying read. -/
def canSpend (today yesterday : String) (s : SpendLedger) (discordUserId : String)
    (amountCents : Int) : Bool × SpendLedger :=
  let r := getSpentToday today yesterday s discordUserId
  (decide (r.1 + amountCents ≤ DAILY_LIMIT_CENTS), r.2)

/-- recordSpend: add the amount to the today bucket of the user; this
path performs no eviction. -/
def recordSpend (today : String) (s : SpendLedger) (discordUserId : String)
    (amountCents : Int) : SpendLedger :=
  let userMap := (getA discordUserId s.ledger).getD []
  let current := (getA today userMap).getD 0
  ⟨setA discordUserId (setA today (current + amountCents) userMap) s.ledger⟩

/-- trySpend: check-and-record in one step; the canSpend read first
evicts the user's stale day buckets in place, then on success the spend
is recorded on the evicted ledger, and on refusal the evicted ledger is
returned. -/
def trySpend (today yesterday : String) (s : SpendLedger) (discordUserId : String)
    (amountCents : Int) : Bool × SpendLedger :=
  let c := canSpend today yesterday s discordUserId amountCents
  if c.1 then (true, recordSpend today c.2 discordUserId amountCents)
  else (false, c.2)

/-- Balance shape returned to Discord users by the trader. -/
structure Balance where
  userId : String
  availableCents : Int
  spentTodayCents : Int
  remainingDailyLimitCents : Int
  asOfMs : Nat
deriving DecidableEq, Repr

/-- Provider-facing balance response of the gateway. -/
structure ProviderBalanceResponse where
  availableCents : Int
  asOfMs : Nat
deriving DecidableEq, Repr

/-- Provider-facing recent trade row of the gateway. -/
structure ProviderRecentTrade where
  providerTradeId : String
  marketId : String
  outcome : Outcome
  amountCents : Int
  executedAtMs : Nat
deriving DecidableEq, Repr

/-- Successful trade row as mapped back to the Trader interface. -/
structure TradeRow where
  tradeId : String
  userId : String
  marketId : String
  outcome : Outcome
  amountCents : Int
  executedAtMs : Nat
deriving DecidableEq, Repr

/-- Gateway abstraction injected into UserAccountTrader, as a pair of
pure response functions. -/
structure UserGateway where
  getAccountBalance : String → ProviderBalanceResponse
  getRecentTradesForAccount : String → Nat → List ProviderRecentTrade

/-- UserAccountTrader.getBalance: resolve the linked account first; with
no linked account return an all-zero balance at the current instant,
otherwise map the provider balance with placeholder zero spend fields. -/
def traderGetBalance (bindingReader : String → Option String) (gateway : UserGateway)
    (nowMs : Nat) (userId : String) : Balance :=
  match bindingReader userId with
  | none =>
    { userId := userId
      availableCents := 0
      spentTodayCents := 0
      remainingDailyLimitCents := 0
      asOfMs := nowMs }
  | some accountId =>
    let providerBalance := gateway.getAccountBalance accountId
    { userId := userId
      availableCents := providerBalance.availableCents
      spentTodayCents := 0
      remainingDailyLimitCents := 0
      asOfMs := providerBalance.asOfMs }

/-- UserAccountTrader.getRecentTrades: resolve the linked account first;
with no linked account return the empty list, otherwise map the provider
rows to trade rows for the caller. -/
def traderGetRecentTrades (bindingReader : String → Option String) (gateway : UserGateway)
    (userId : String) (limit : Nat) : List TradeRow :=
  match bindingReader userId with
  | none => []
  | some accountId =>
    (gateway.getRecentTradesForAccount accountId limit).map (fun trade =>
      { tradeId := trade.providerTradeId
        userId := userId
        marketId := trade.marketId
        outcome := trade.outcome
        amountCents := trade.amountCents
        executedAtMs := trade.executedAtMs })

/-- JSON values, as produced by JSON.parse over the model response text.
Objects are field lists read with first-match lookup. -/
inductive Json where
  | null
  | bool (b : Bool)
  | num (n : Int)
  | str (s : String)
  | arr (elems : List Json)
  | obj (fields : List (String × Json))

/-- Fields of an object value, empty for every other variant. -/
def Json.fields : Json → List (String × Json)
  | .obj fs => fs
  | _ => []

/-- isRecord from the parser: a plain object. -/
def Json.isRecord : Json → Bool
  | .obj _ => true
  | _ => false

/-- Whether the value is the JSON null literal. -/
def Json.isNull : Json → Bool
  | .null => true
  | _ => false

/-- Property access on an object. -/
def getField (value : Json) (key : String) : Option Json :=
  getA key value.fields

/-- String-typed property, when present with that type. -/
def getStrField (value : Json) (key : String) : Option String :=
  match getField value key with
  | some (.str s) => some s
  | _ => none

/-- Number-typed property, when present with that type. Numbers in the
model are integers, so the finiteness test of the source always holds. -/
def getNumField (value : Json) (key : String) : Option Int :=
  match getField value key with
  | some (.num n) => some n
  | _ => none

/-- Intents accepted by the parser. -/
def SUPPORTED_INTENTS : List String :=
  ["place_bet", "get_balance", "get_trade_history", "query_market"]

/-- hasValidRawText from the parser: rawText is absent or a string. -/
def hasValidRawText (value : Json) : Bool :=
  match getField value "rawText" with
  | none => true
  | some (.str _) => true
  | some _ => false

/-- hasOnlyKeys from the parser: every key of the object is allowed. -/
def hasOnlyKeys (value : Json) (allowed : List String) : Bool :=
  (value.fields.map Prod.fst).all (fun key => allowed.contains key)

/-- isAgentOutput from src/src/agent/intentParser.ts: deterministic shape
validation of the model output, per intent variant. -/
def isAgentOutput (value : Json) : Bool :=
  if !value.isRecord then false
  else
    match getStrField value "intent" with
    | none => false
    | some intent =>
      if !(SUPPORTED_INTENTS.contains intent) then false
      else if (getStrField value "userId").isNone then false
      else if !(hasValidRawText value) then false
      else if intent = "place_bet" then
        (getStrField value "marketId").isSome &&
        ((getStrField value "outcome" == some "YES") ||
          (getStrField value "outcome" == some "NO")) &&
        (getNumField value "amountCents").isSome &&
        hasOnlyKeys value ["intent", "userId", "marketId", "outcome", "amountCents", "rawText"]
      else if intent = "get_balance" then
        hasOnlyKeys value ["intent", "userId", "rawText"]
      else if intent = "get_trade_history" then
        ((getField value "limit").isNone || (getNumField value "limit").isSome) &&
        hasOnlyKeys value ["intent", "userId", "limit", "rawText"]
      else if intent = "query_market" then
        ((getField value "marketId").isNone || (getStrField value "marketId").isSome) &&
        ((getField value "query").isNone || (getStrField value "query").isSome) &&
        hasOnlyKeys value ["intent", "userId", "marketId", "query", "rawText"]
      else false

/-- toBrandedAgentOutput from the parser: re-map the validated object to
the AgentOutput union through the same if chain over the intent tag,
extracting each field. -/
def toBrandedAgentOutput (value : Json) : Option AgentOutput :=
  match getStrField value "intent", getStrField value "userId" with
  | some intent, some userId =>
    if intent = "place_bet" then
      match getStrField value "marketId", getStrField value "outcome",
          getNumField value "amountCents" with
      | some marketId, some outcomeText, some amountCents =>
        let outcome := if outcomeText = "YES" then Outcome.yes else Outcome.no
        some (.placeBet userId marketId outcome amountCents (getStrField value "rawText"))
      | _, _, _ => none
    else if intent = "get_balance" then
      some (.getBalance userId (getStrField value "rawText"))
    else if intent = "get_trade_history" then
      some (.getTradeHistory userId (getNumField value "limit") (getStrField value "rawText"))
    else if intent = "query_market" then
      some (.queryMarket userId (getStrField value "marketId") (getStrField value "query")
        (getStrField value "rawText"))
    else none
  | _, _ => none

/-- Deterministic tail of parseIntent (src/src/agent/intentParser.ts,
lines 204-222) applied to the JSON value parsed from the model response:
explicit null fails, shape validation fails closed, an echoed userId that
differs from the caller is discarded, and only then is the branded output
returned. -/
def parseIntentCore (parsed : Json) (userId : String) : Option AgentOutput :=
  if parsed.isNull then none
  else if !(isAgentOutput parsed) then none
  else if getStrField parsed "userId" ≠ some userId then none
  else toBrandedAgentOutput parsed

/-- C7: for every identity and accounts A and B, persistLink followed by
getLinkedAccount returns A; a subsequent persistLink with B overwrites
the mapping so getLinkedAccount returns B; and the store keeps at most
one linked account per identity: the invariant holds after link and
unlink whenever it held before, and under it each identity has at most
one entry. -/
theorem persistLink_overwrite_and_unique (s : AccountLinkStoreState)
    (uid accountA accountB : String) (tA tB : Nat) :
    ((persistLink s uid accountA tA).getLinkedAccount uid = some accountA) ∧
    ((persistLink (persistLink s uid accountA tA) uid accountB tB).getLinkedAccount uid
      = some accountB) ∧
    (s.atMostOnePerIdentity → (persistLink s uid accountA tA).atMostOnePerIdentity) ∧
    (s.atMostOnePerIdentity → (s.unlink uid).atMostOnePerIdentity) ∧
    (s.atMostOnePerIdentity → ∀ u : String, countKey u s.links ≤ 1) := by
  refine ⟨?_, ?_, ?_, ?_, ?_⟩
  · simp [persistLink, AccountLinkStoreState.link, AccountLinkStoreState.getLinkedAccount,
      getA_setA_self]
  · simp [persistLink, AccountLinkStoreState.link, AccountLinkStoreState.getLinkedAccount,
      getA_setA_self]
  · intro h u
    by_cases hu : u = uid
    · subst hu
      simp [persistLink, AccountLinkStoreState.link, countKey_setA_self u _ s.links (h u)]
    · simpa [persistLink, AccountLinkStoreState.link, countKey_setA_ne uid u _ s.links hu]
        using h u
  · intro h u
    show countKey u (delA uid s.links) ≤ 1
    rw [countKey_delA uid u s.links]
    split_ifs
    · omega
    · exact h u
  · intro h
    exact h

/-- Witness for C7 at a concrete store. -/
theorem persistLink_overwrite_and_unique_witness :
    ((persistLink (AccountLinkStoreState.mk []) "user-1" "0xaaa" 5).getLinkedAccount "user-1"
      = some "0xaaa") ∧
    ((persistLink (persistLink (AccountLinkStoreState.mk []) "user-1" "0xaaa" 5)
        "user-1" "0xbbb" 9).getLinkedAccount "user-1" = some "0xbbb") ∧
    ((persistLink (AccountLinkStoreState.mk []) "user-1" "0xaaa" 5).atMostOnePerIdentity) := by
  have h := persistLink_overwrite_and_unique (AccountLinkStoreState.mk []) "user-1"
    "0xaaa" "0xbbb" 5 9
  refine ⟨h.1, h.2.1, h.2.2.1 ?_⟩
  intro u
  simp [countKey]

/-- C8: the idempotency key built by the assembler is the deterministic
tuple of identity, market id, outcome, amount and the five-minute time
bucket of nowMs; two builds with identical parameters and times in the
same bucket yield equal keys, and a build one full bucket later yields a
different key. -/
theorem buildTradeRequest_idempotency (intent : ValidatedIntent) (identity : String)
    (market : MarketRef) (t1 t2 : Nat) :
    ((buildTradeRequest intent identity market t1).idempotencyKey =
      ⟨identity, market.id, intent.outcome, intent.amountCents, t1 / TIME_BUCKET_MS⟩) ∧
    (t1 / TIME_BUCKET_MS = t2 / TIME_BUCKET_MS →
      (buildTradeRequest intent identity market t1).idempotencyKey =
        (buildTradeRequest intent identity market t2).idempotencyKey) ∧
    ((buildTradeRequest intent identity market t1).idempotencyKey ≠
      (buildTradeRequest intent identity market (t1 + TIME_BUCKET_MS)).idempotencyKey) := by
  refine ⟨rfl, ?_, ?_⟩
  · intro h
    simp [buildTradeRequest, h]
  · intro h
    have hb : t1 / TIME_BUCKET_MS = (t1 + TIME_BUCKET_MS) / TIME_BUCKET_MS :=
      congrArg IdempotencyKey.timeBucket h
    rw [Nat.add_div_right _ (by decide : 0 < TIME_BUCKET_MS)] at hb
    omega

/-- Witness for C8 at the parameters of the testable property of section
8: identity u1, market m1, outcome YES, 500 cents. -/
theorem buildTradeRequest_idempotency_witness :
    ((buildTradeRequest ⟨"u1", "m1", Outcome.yes, 500⟩ "u1" ⟨"m1", .active⟩
        100000).idempotencyKey =
      (buildTradeRequest ⟨"u1", "m1", Outcome.yes, 500⟩ "u1" ⟨"m1", .active⟩
        250000).idempotencyKey) ∧
    ((buildTradeRequest ⟨"u1", "m1", Outcome.yes, 500⟩ "u1" ⟨"m1", .active⟩
        100000).idempotencyKey ≠
      (buildTradeRequest ⟨"u1", "m1", Outcome.yes, 500⟩ "u1" ⟨"m1", .active⟩
        400000).idempotencyKey) :=
  ⟨(buildTradeRequest_idempotency ⟨"u1", "m1", Outcome.yes, 500⟩ "u1" ⟨"m1", .active⟩
      100000 250000).2.1 (by decide),
    (buildTradeRequest_idempotency ⟨"u1", "m1", Outcome.yes, 500⟩ "u1" ⟨"m1", .active⟩
      100000 400000).2.2⟩

/-- C10: for a Discord user with no linked account the trader returns a
balance whose available, spent-today and remaining-limit fields are all
zero, returns the empty recent-trade list, and neither result depends on
the gateway. -/
theorem trader_unlinked_zero_and_no_gateway (bindingReader : String → Option String)
    (gateway gateway2 : UserGateway) (nowMs : Nat) (userId : String) (limit : Nat)
    (h : bindingReader userId = none) :
    traderGetBalance bindingReader gateway nowMs userId =
      ⟨userId, 0, 0, 0, nowMs⟩ ∧
    traderGetBalance bindingReader gateway nowMs userId =
      traderGetBalance bindingReader gateway2 nowMs userId ∧
    traderGetRecentTrades bindingReader gateway userId limit = [] ∧
    traderGetRecentTrades bindingReader gateway userId limit =
      traderGetRecentTrades bindingReader gateway2 userId limit := by
  refine ⟨?_, ?_, ?_, ?_⟩ <;> simp [traderGetBalance, traderGetRecentTrades, h]

/-- Witness for C10 with a concrete empty binding and two observably
different gateways. -/
theorem trader_unlinked_zero_and_no_gateway_witness :
    traderGetBalance (fun _ => none)
      ⟨fun _ => ⟨777, 3⟩, fun _ _ => [⟨"t", "m", Outcome.yes, 5, 1⟩]⟩ 42 "user-9" =
      ⟨"user-9", 0, 0, 0, 42⟩ ∧
    traderGetRecentTrades (fun _ => none)
      ⟨fun _ => ⟨777, 3⟩, fun _ _ => [⟨"t", "m", Outcome.yes, 5, 1⟩]⟩ "user-9" 5 = [] := by
  have h := trader_unlinked_zero_and_no_gateway (fun _ => none)
    ⟨fun _ => ⟨777, 3⟩, fun _ _ => [⟨"t", "m", Outcome.yes, 5, 1⟩]⟩
    ⟨fun _ => ⟨0, 0⟩, fun _ _ => []⟩ 42 "user-9" 5 rfl
  exact ⟨h.1, h.2.2.1⟩

theorem getA_evict_today (today yesterday : String) (userMap : List (String × Int)) :
    getA today (evictStaleEntries today yesterday userMap) = getA today userMap :=
  getA_filter_keep today _ userMap (fun v => by simp)

theorem getSpentToday_recordSpend (today yesterday : String) (s : SpendLedger)
    (uid : String) (amountCents : Int) :
    (getSpentToday today yesterday
        (recordSpend today (getSpentToday today yesterday s uid).2 uid amountCents) uid).1 =
      (getSpentToday today yesterday s uid).1 + amountCents := by
  cases hu : getA uid s.ledger with
  | none =>
    simp [getSpentToday, getOrInitDay, recordSpend, hu, getA_setA_self, getA_evict_today,
      setA, getA]
  | some userMap =>
    simp [getSpentToday, getOrInitDay, recordSpend, hu, getA_setA_self, getA_evict_today]

theorem getSpentToday_after_evict (today yesterday : String) (s : SpendLedger)
    (uid : String) :
    (getSpentToday today yesterday (getSpentToday today yesterday s uid).2 uid).1 =
      (getSpentToday today yesterday s uid).1 := by
  cases hu : getA uid s.ledger with
  | none => simp [getSpentToday, getOrInitDay, hu]
  | some userMap =>
    simp [getSpentToday, getOrInitDay, hu, getA_setA_self, getA_evict_today]

/-- C9 counterexample: at a ledger whose only bucket for user u is three
days old, an over-limit trySpend is refused yet does not leave the
ledger unchanged: the canSpend read evicts the stale bucket from the
stored user map in place. -/
theorem trySpend_refusal_evicts_counterexample :
    (trySpend "2026-10-11" "2026-10-10"
      (SpendLedger.mk [("u", [("2026-10-08", 100)])]) "u" 600).1 = false ∧
    (trySpend "2026-10-11" "2026-10-10"
      (SpendLedger.mk [("u", [("2026-10-08", 100)])]) "u" 600).2 ≠
      SpendLedger.mk [("u", [("2026-10-08", 100)])] := by
  decide

/-- C9 amended: the remaining daily budget reported by the ledger is
never negative, and trySpend succeeds and adds exactly the amount to the
today bucket precisely when the current spend plus the amount stays
within the daily limit of 500 cents; otherwise it reports false, leaves
the today spend total unchanged, and changes the ledger only by the
in-place eviction of the user's stale day buckets performed by the
canSpend read. -/
theorem spendLedger_nonneg_and_trySpend (today yesterday : String) (s : SpendLedger)
    (uid : String) (amountCents : Int) :
    (0 ≤ (getRemainingToday today yesterday s uid).1) ∧
    ((getSpentToday today yesterday s uid).1 + amountCents ≤ DAILY_LIMIT_CENTS →
      (trySpend today yesterday s uid amountCents).1 = true ∧
      (getSpentToday today yesterday (trySpend today yesterday s uid amountCents).2 uid).1 =
        (getSpentToday today yesterday s uid).1 + amountCents) ∧
    (DAILY_LIMIT_CENTS < (getSpentToday today yesterday s uid).1 + amountCents →
      (trySpend today yesterday s uid amountCents).1 = false ∧
      (trySpend today yesterday s uid amountCents).2 =
        (getSpentToday today yesterday s uid).2 ∧
      (getSpentToday today yesterday (trySpend today yesterday s uid amountCents).2 uid).1 =
        (getSpentToday today yesterday s uid).1) := by
  refine ⟨le_max_left 0 _, ?_, ?_⟩
  · intro h
    have hc : (canSpend today yesterday s uid amountCents).1 = true := by
      simp [canSpend, h]
    refine ⟨by simp [trySpend, hc], ?_⟩
    have h2 : (trySpend today yesterday s uid amountCents).2 =
        recordSpend today (getSpentToday today yesterday s uid).2 uid amountCents := by
      simp [trySpend, hc, canSpend, h]
    rw [h2, getSpentToday_recordSpend]
  · intro h
    have hc : (canSpend today yesterday s uid amountCents).1 = false := by
      simp only [canSpend, decide_eq_false_iff_not, not_le]
      omega
    have hn : ¬ ((getSpentToday today yesterday s uid).1 + amountCents ≤
        DAILY_LIMIT_CENTS) := by
      omega
    have h2 : (trySpend today yesterday s uid amountCents).2 =
        (getSpentToday today yesterday s uid).2 := by
      simp [trySpend, hc, canSpend, hn]
    refine ⟨by simp [trySpend, hc], h2, ?_⟩
    rw [h2, getSpentToday_after_evict]

/-- Witness for C9 amended at a concrete ledger: user u spent 200 today,
so a further 300 is accepted and recorded (reaching exactly the limit)
while 301 is refused with the today total still 200 and the ledger equal
to the state left by the evicting read. -/
theorem spendLedger_nonneg_and_trySpend_witness :
    (trySpend "d1" "d0" (SpendLedger.mk [("u", [("d1", 200)])]) "u" 300).1 = true ∧
    (getSpentToday "d1" "d0"
      (trySpend "d1" "d0" (SpendLedger.mk [("u", [("d1", 200)])]) "u" 300).2 "u").1 = 500 ∧
    (trySpend "d1" "d0" (SpendLedger.mk [("u", [("d1", 200)])]) "u" 301).1 = false ∧
    (getSpentToday "d1" "d0"
      (trySpend "d1" "d0" (SpendLedger.mk [("u", [("d1", 200)])]) "u" 301).2 "u").1 = 200 := by
  have h1 := (spendLedger_nonneg_and_trySpend "d1" "d0"
    (SpendLedger.mk [("u", [("d1", 200)])]) "u" 300).2.1 (by decide)
  have h2 := (spendLedger_nonneg_and_trySpend "d1" "d0"
    (SpendLedger.mk [("u", [("d1", 200)])]) "u" 301).2.2 (by decide)
  refine ⟨h1.1, ?_, h2.1, ?_⟩
  · rw [h1.2]
    decide
  · rw [h2.2.2]
    decide

/-- C2 counterexample: issue challenge n1 for u1, then challenge n2 for
the same identity (orphaning n1); the active challenge now carries nonce
n2 and is unused, yet markUsed with the orphaned nonce n1 flips the used
flag of that new active challenge, because the store never re-checks the
nonce against the stored challenge. -/
theorem markUsed_orphaned_nonce_counterexample :
    (((issueChallenge "u1" "n2" 1000 (issueChallenge "u1" "n1" 0
        (ChallengeStoreState.mk [] [])).2).2).getActive "u1").map AccountLinkChallenge.nonce
      = some "n2" ∧
    (((issueChallenge "u1" "n2" 1000 (issueChallenge "u1" "n1" 0
        (ChallengeStoreState.mk [] [])).2).2).getActive "u1").map AccountLinkChallenge.used
      = some false ∧
    ((((issueChallenge "u1" "n2" 1000 (issueChallenge "u1" "n1" 0
        (ChallengeStoreState.mk [] [])).2).2).markUsed "n1").getActive "u1").map
        AccountLinkChallenge.used = some true := by
  decide

/-- C2 amended: markUsed is idempotent; it leaves the store unchanged
when the nonce has no owner in the index or the owner has no stored
challenge; and when the owner does have a stored challenge it sets used
to true on that challenge without checking that its nonce still equals
the given nonce, so an orphaned nonce marks the replacement challenge
used. -/
theorem markUsed_characterization (s : ChallengeStoreState) (nonce : String) :
    ((s.markUsed nonce).markUsed nonce = s.markUsed nonce) ∧
    (getA nonce s.ownerByNonce = none → s.markUsed nonce = s) ∧
    (∀ owner, getA nonce s.ownerByNonce = some owner →
      getA owner s.byDiscordUserId = none → s.markUsed nonce = s) ∧
    (∀ owner challenge, getA nonce s.ownerByNonce = some owner →
      getA owner s.byDiscordUserId = some challenge →
      (s.markUsed nonce).byDiscordUserId =
        setA owner { challenge with used := true } s.byDiscordUserId ∧
      (s.markUsed nonce).ownerByNonce = s.ownerByNonce) := by
  cases ho : getA nonce s.ownerByNonce with
  | none =>
    refine ⟨?_, fun _ => ?_, fun o ho2 _ => ?_, fun o ch ho2 _ => ?_⟩
    · simp [ChallengeStoreState.markUsed, ho]
    · simp [ChallengeStoreState.markUsed, ho]
    · cases ho2
    · cases ho2
  | some owner =>
    cases hc : getA owner s.byDiscordUserId with
    | none =>
      refine ⟨?_, fun hn => ?_, fun o ho2 _ => ?_, fun o ch ho2 hc2 => ?_⟩
      · simp [ChallengeStoreState.markUsed, ho, hc]
      · cases hn
      · simp [ChallengeStoreState.markUsed, ho, hc]
      · injection ho2 with he
        subst he
        rw [hc] at hc2
        cases hc2
    | some challenge =>
      refine ⟨?_, fun hn => ?_, fun o ho2 hc2 => ?_, fun o ch ho2 hc2 => ?_⟩
      · simp [ChallengeStoreState.markUsed, ho, hc, getA_setA_self, setA_setA_same]
      · cases hn
      · injection ho2 with he
        subst he
        rw [hc] at hc2
        cases hc2
      · injection ho2 with he
        subst he
        rw [hc] at hc2
        injection hc2 with he2
        subst he2
        constructor
        · simp [ChallengeStoreState.markUsed, ho, hc]
        · simp [ChallengeStoreState.markUsed, ho, hc]

/-- Witness for C2 amended on the orphaned-nonce state: markUsed with n1
rewrites the u1 entry to the used version of the currently stored
challenge (the n2 one), and is idempotent there. -/
theorem markUsed_characterization_witness :
    ((issueChallenge "u1" "n2" 1000 (issueChallenge "u1" "n1" 0
        (ChallengeStoreState.mk [] [])).2).2.markUsed "n1").byDiscordUserId =
      setA "u1" ⟨"u1", "n2", 1000, 301000, true⟩
        (issueChallenge "u1" "n2" 1000 (issueChallenge "u1" "n1" 0
          (ChallengeStoreState.mk [] [])).2).2.byDiscordUserId ∧
    (((issueChallenge "u1" "n2" 1000 (issueChallenge "u1" "n1" 0
        (ChallengeStoreState.mk [] [])).2).2.markUsed "n1").markUsed "n1") =
      ((issueChallenge "u1" "n2" 1000 (issueChallenge "u1" "n1" 0
        (ChallengeStoreState.mk [] [])).2).2.markUsed "n1") := by
  have h := markUsed_characterization (issueChallenge "u1" "n2" 1000
    (issueChallenge "u1" "n1" 0 (ChallengeStoreState.mk [] [])).2).2 "n1"
  exact ⟨(h.2.2.2 "u1" ⟨"u1", "n2", 1000, 301000, false⟩ (by decide) (by decide)).1, h.1⟩

/-- C3: issue returns a challenge expiring exactly five minutes after
nowMs and stores it as the identity's active challenge, replacing any
prior one; and isValid holds precisely when the challenge exists, its
nonce equals the given nonce, it is unused, and nowMs is at most the
expiry instant, so a verification at the expiry instant succeeds and one
millisecond later fails. -/
theorem issueChallenge_and_isValid_spec (identity nonce : String) (nowMs : Nat)
    (s : ChallengeStoreState) :
    ((issueChallenge identity nonce nowMs s).1.expiresAtMs = nowMs + 5 * 60 * 1000) ∧
    ((issueChallenge identity nonce nowMs s).2.getActive identity =
      some (issueChallenge identity nonce nowMs s).1) ∧
    (∀ (candidate : Option AccountLinkChallenge) (n : String) (t : Nat),
      isValidChallenge candidate n t = true ↔
        ∃ ch, candidate = some ch ∧ ch.nonce = n ∧ ch.used = false ∧ t ≤ ch.expiresAtMs) := by
  refine ⟨rfl, ?_, ?_⟩
  · simp [issueChallenge, ChallengeStoreState.create, ChallengeStoreState.getActive,
      getA_setA_self]
  · intro candidate n t
    cases candidate with
    | none => simp [isValidChallenge]
    | some ch => simp [isValidChallenge, Bool.and_eq_true, and_assoc]

/-- Witness for C3: a challenge issued at time 0 expires at 300000; it
verifies at exactly 300000 and no longer verifies at 300001. -/
theorem issueChallenge_and_isValid_spec_witness :
    isValidChallenge (some (issueChallenge "u1" "n1" 0 (ChallengeStoreState.mk [] [])).1)
      "n1" 300000 = true ∧
    isValidChallenge (some (issueChallenge "u1" "n1" 0 (ChallengeStoreState.mk [] [])).1)
      "n1" 300001 = false := by
  have h := (issueChallenge_and_isValid_spec "u1" "n1" 0 (ChallengeStoreState.mk [] [])).2.2
  refine ⟨(h _ "n1" 300000).mpr ⟨_, rfl, rfl, rfl, by decide⟩, by decide⟩

theorem markUsed_getA_cases (s : ChallengeStoreState) (nonce uid : String) :
    getA uid (s.markUsed nonce).byDiscordUserId = getA uid s.byDiscordUserId ∨
    (∃ ch, getA uid s.byDiscordUserId = some ch ∧
      getA uid (s.markUsed nonce).byDiscordUserId = some { ch with used := true }) := by
  cases ho : getA nonce s.ownerByNonce with
  | none =>
    left
    simp [ChallengeStoreState.markUsed, ho]
  | some owner =>
    cases hc : getA owner s.byDiscordUserId with
    | none =>
      left
      simp [ChallengeStoreState.markUsed, ho, hc]
    | some ch =>
      by_cases hu : uid = owner
      · subst hu
        right
        exact ⟨ch, hc, by simp [ChallengeStoreState.markUsed, ho, hc, getA_setA_self]⟩
      · left
        simp [ChallengeStoreState.markUsed, ho, hc, getA_setA_ne owner uid _ _ hu]

theorem verifyLink_cases (recover : String → String → Option String)
    (buildMsg : AccountLinkChallenge → String)
    (identity nonce claimedAccount signature : String) (nowMs : Nat)
    (s : ChallengeStoreState) :
    (((verifyLink recover buildMsg identity nonce claimedAccount signature nowMs s).1 =
        .challengeInvalid ∨
      (verifyLink recover buildMsg identity nonce claimedAccount signature nowMs s).1 =
        .signatureMismatch) ∧
      (verifyLink recover buildMsg identity nonce claimedAccount signature nowMs s).2 = s) ∨
    ((verifyLink recover buildMsg identity nonce claimedAccount signature nowMs s).1 =
        .linked claimedAccount ∧
      (verifyLink recover buildMsg identity nonce claimedAccount signature nowMs s).2 =
        s.markUsed nonce) := by
  cases hma : s.getActive identity with
  | none =>
    left
    simp [verifyLink, hma]
  | some ch =>
    cases hv : isValidChallenge (some ch) nonce nowMs with
    | false =>
      left
      simp [verifyLink, hma, hv]
    | true =>
      cases hr : recover (buildMsg ch) signature with
      | none =>
        left
        simp [verifyLink, hma, hv, hr]
      | some signer =>
        by_cases hs : signer.toLower = claimedAccount.toLower
        · right
          simp [verifyLink, hma, hv, hr, hs]
        · left
          simp [verifyLink, hma, hv, hr, hs]

/-- C1: verifyLink leaves the challenge store untouched whenever it fails
with CHALLENGE_INVALID or SIGNATURE_MISMATCH; a used flag that was
already true stays true across any verifyLink call; and a used flag can
flip from false to true only when the call returns LINKED, so challenge
consumption happens strictly after signature verification succeeds. -/
theorem verifyLink_pure_on_failure_and_used_monotone
    (recover : String → String → Option String) (buildMsg : AccountLinkChallenge → String)
    (identity nonce claimedAccount signature : String) (nowMs : Nat)
    (s : ChallengeStoreState) :
    (((verifyLink recover buildMsg identity nonce claimedAccount signature nowMs s).1 =
        .challengeInvalid ∨
      (verifyLink recover buildMsg identity nonce claimedAccount signature nowMs s).1 =
        .signatureMismatch) →
      (verifyLink recover buildMsg identity nonce claimedAccount signature nowMs s).2 = s) ∧
    (∀ uid ch, getA uid s.byDiscordUserId = some ch → ch.used = true →
      ∃ ch2, getA uid ((verifyLink recover buildMsg identity nonce claimedAccount signature
        nowMs s).2).byDiscordUserId = some ch2 ∧ ch2.used = true) ∧
    (∀ uid ch ch2, getA uid s.byDiscordUserId = some ch →
      getA uid ((verifyLink recover buildMsg identity nonce claimedAccount signature
        nowMs s).2).byDiscordUserId = some ch2 →
      ch.used = false → ch2.used = true →
      (verifyLink recover buildMsg identity nonce claimedAccount signature nowMs s).1 =
        .linked claimedAccount) := by
  rcases verifyLink_cases recover buildMsg identity nonce claimedAccount signature nowMs s with
    ⟨_, hstate⟩ | ⟨hok, hstate⟩
  · refine ⟨fun _ => hstate, fun uid ch hch hused => ?_, ?_⟩
    · refine ⟨ch, ?_, hused⟩
      rw [hstate]
      exact hch
    · intro uid ch ch2 hch hch2 hfalse htrue
      rw [hstate, hch] at hch2
      injection hch2 with he
      rw [← he, hfalse] at htrue
      simp at htrue
  · refine ⟨fun hf => ?_, fun uid ch hch hused => ?_, fun _ _ _ _ _ _ _ => hok⟩
    · rcases hf with hf | hf <;> rw [hok] at hf <;> cases hf
    · rw [hstate]
      rcases markUsed_getA_cases s nonce uid with heq | ⟨ch0, hch0, hnew⟩
      · exact ⟨ch, heq.trans hch, hused⟩
      · exact ⟨{ ch0 with used := true }, hnew, rfl⟩

/-- Witness for C1: with a recover function that fails, verifyLink on a
freshly issued valid challenge reports SIGNATURE_MISMATCH and the store
is exactly the input store. -/
theorem verifyLink_pure_on_failure_witness :
    (verifyLink (fun _ _ => none) (fun _ => "msg") "u1" "n1" "0xabc" "sig" 10
      (issueChallenge "u1" "n1" 0 (ChallengeStoreState.mk [] [])).2).2 =
      (issueChallenge "u1" "n1" 0 (ChallengeStoreState.mk [] [])).2 :=
  (verifyLink_pure_on_failure_and_used_monotone (fun _ _ => none) (fun _ => "msg")
    "u1" "n1" "0xabc" "sig" 10
    (issueChallenge "u1" "n1" 0 (ChallengeStoreState.mk [] [])).2).1 (Or.inr (by decide))

theorem toBranded_echoes_userId (value : Json) (u : String) (out : AgentOutput)
    (hu : getStrField value "userId" = some u)
    (hb : toBrandedAgentOutput value = some out) : out.echoedUserId = u := by
  cases hi : getStrField value "intent" with
  | none =>
    simp only [toBrandedAgentOutput, hi] at hb
    cases hb
  | some intent =>
    simp only [toBrandedAgentOutput, hi, hu] at hb
    by_cases h1 : intent = "place_bet"
    · rw [if_pos h1] at hb
      cases hm : getStrField value "marketId" with
      | none => rw [hm] at hb; simp at hb
      | some marketId =>
        cases ho : getStrField value "outcome" with
        | none => rw [hm, ho] at hb; simp at hb
        | some outcomeText =>
          cases ha : getNumField value "amountCents" with
          | none => rw [hm, ho, ha] at hb; simp at hb
          | some amountCents =>
            rw [hm, ho, ha] at hb
            simp only [Option.some.injEq] at hb
            rw [← hb]
            rfl
    · rw [if_neg h1] at hb
      by_cases h2 : intent = "get_balance"
      · rw [if_pos h2] at hb
        injection hb with he
        rw [← he]
        rfl
      · rw [if_neg h2] at hb
        by_cases h3 : intent = "get_trade_history"
        · rw [if_pos h3] at hb
          injection hb with he
          rw [← he]
          rfl
        · rw [if_neg h3] at hb
          by_cases h4 : intent = "query_market"
          · rw [if_pos h4] at hb
            injection hb with he
            rw [← he]
            rfl
          · rw [if_neg h4] at hb
            cases hb

/-- C4: whenever the deterministic validation tail of parseIntent accepts
a parsed value, the echoed userId of the returned AgentOutput equals the
caller identity; and any parsed object whose echoed userId differs from
the caller is discarded before any further processing. -/
theorem parseIntentCore_identity_guard (parsed : Json) (userId : String) :
    (∀ out, parseIntentCore parsed userId = some out → out.echoedUserId = userId) ∧
    (∀ echoed, getStrField parsed "userId" = some echoed → echoed ≠ userId →
      parseIntentCore parsed userId = none) := by
  constructor
  · intro out hout
    by_cases hn : parsed.isNull = true
    · simp [parseIntentCore, hn] at hout
    · by_cases ha : isAgentOutput parsed = true
      · by_cases hu : getStrField parsed "userId" = some userId
        · have hb : toBrandedAgentOutput parsed = some out := by
            simpa [parseIntentCore, hn, ha, hu] using hout
          exact toBranded_echoes_userId parsed userId out hu hb
        · simp [parseIntentCore, hn, ha, hu] at hout
      · simp [parseIntentCore, hn, ha] at hout
  · intro echoed hech hne
    have hu : getStrField parsed "userId" ≠ some userId := by
      rw [hech]
      intro hcontra
      exact hne (Option.some.inj hcontra)
    by_cases hn : parsed.isNull = true
    · simp [parseIntentCore, hn]
    · by_cases ha : isAgentOutput parsed = true
      · simp [parseIntentCore, hn, ha, hu]
      · simp [parseIntentCore, hn, ha]

/-- Witness for C4: a well-formed get-balance object echoing the caller
alice is accepted with userId alice, while the same object echoing bob is
discarded when the caller is alice. -/
theorem parseIntentCore_identity_guard_witness :
    (AgentOutput.getBalance "alice" none).echoedUserId = "alice" ∧
    parseIntentCore (Json.obj [("intent", Json.str "get_balance"),
      ("userId", Json.str "bob")]) "alice" = none := by
  refine ⟨?_, ?_⟩
  · exact (parseIntentCore_identity_guard (Json.obj [("intent", Json.str "get_balance"),
      ("userId", Json.str "alice")]) "alice").1 (AgentOutput.getBalance "alice" none)
      (by decide)
  · exact (parseIntentCore_identity_guard (Json.obj [("intent", Json.str "get_balance"),
      ("userId", Json.str "bob")]) "alice").2 "bob" (by decide) (by decide)

/-- C5: the validator rejects every non-place-bet variant as not
actionable here; for place-bet intents the ordered checks short-circuit
on the first failure in the fixed priority account-linked, market-exists,
market-active, amount-valid, limits: each error code is returned exactly
when every earlier check passes and its own check fails; in particular a
context with no linked account yields ACCOUNT_NOT_CONNECTED regardless of
the market and amount fields. -/
theorem validateAgentOutput_ordered_checks (userId marketId : String) (outcome : Outcome)
    (amountCents : Int) (rawText : Option String) (ctx : ValidationContext) :
    (∀ out : AgentOutput, out.isPlaceBet = false →
      validateAgentOutput out ctx = .rejectedNotPlaceBet) ∧
    (validateAgentOutput (.placeBet userId marketId outcome amountCents rawText) ctx =
        .rejected .accountNotConnected ↔ ctx.linkedAccountId = none) ∧
    (validateAgentOutput (.placeBet userId marketId outcome amountCents rawText) ctx =
        .rejected .invalidMarket ↔
      ctx.linkedAccountId ≠ none ∧ ctx.marketLookup marketId = none) ∧
    (validateAgentOutput (.placeBet userId marketId outcome amountCents rawText) ctx =
        .rejected .marketNotActive ↔
      ctx.linkedAccountId ≠ none ∧
        ∃ market, ctx.marketLookup marketId = some market ∧ market.status ≠ .active) ∧
    (validateAgentOutput (.placeBet userId marketId outcome amountCents rawText) ctx =
        .rejected .invalidAmount ↔
      ctx.linkedAccountId ≠ none ∧
        (∃ market, ctx.marketLookup marketId = some market ∧ market.status = .active) ∧
        (amountCents ≤ 0 ∨ amountCents < ctx.minOrderCents ∨
          ctx.maxOrderCents < amountCents)) ∧
    (validateAgentOutput (.placeBet userId marketId outcome amountCents rawText) ctx =
        .rejected .limitExceeded ↔
      ctx.linkedAccountId ≠ none ∧
        (∃ market, ctx.marketLookup marketId = some market ∧ market.status = .active) ∧
        (0 < amountCents ∧ ctx.minOrderCents ≤ amountCents ∧
          amountCents ≤ ctx.maxOrderCents) ∧
        (ctx.dailyLimitCents < ctx.spentTodayCents + amountCents ∨
          ctx.hourlyLimitCents < ctx.spentThisHourCents + amountCents)) := by
  have hnp : ∀ out : AgentOutput, out.isPlaceBet = false →
      validateAgentOutput out ctx = .rejectedNotPlaceBet := by
    intro out hout
    cases out with
    | placeBet a b c d e => simp [AgentOutput.isPlaceBet] at hout
    | getBalance a b => rfl
    | getTradeHistory a b c => rfl
    | queryMarket a b c d => rfl
  refine ⟨hnp, ?_⟩
  cases hl : ctx.linkedAccountId with
  | none =>
    have hv : validateAgentOutput (.placeBet userId marketId outcome amountCents rawText) ctx
        = .rejected .accountNotConnected := by
      simp [validateAgentOutput, hl]
    rw [hv]
    exact ⟨iff_of_true rfl rfl, iff_of_false (by decide) (by simp),
      iff_of_false (by decide) (by simp), iff_of_false (by decide) (by simp),
      iff_of_false (by decide) (by simp)⟩
  | some acct =>
    cases hm : ctx.marketLookup marketId with
    | none =>
      have hv : validateAgentOutput (.placeBet userId marketId outcome amountCents rawText) ctx
          = .rejected .invalidMarket := by
        simp [validateAgentOutput, hl, hm]
      rw [hv]
      refine ⟨iff_of_false (by decide) (by simp),
        iff_of_true rfl ⟨by simp, rfl⟩, iff_of_false (by decide) ?_,
        iff_of_false (by decide) ?_, iff_of_false (by decide) ?_⟩
      · rintro ⟨-, m, hm2, -⟩
        cases hm2
      · rintro ⟨-, ⟨m, hm2, -⟩, -⟩
        cases hm2
      · rintro ⟨-, ⟨m, hm2, -⟩, -, -⟩
        cases hm2
    | some market =>
      by_cases hs : market.status = MarketStatus.active
      · by_cases ham : amountCents ≤ 0 ∨ amountCents < ctx.minOrderCents ∨
            ctx.maxOrderCents < amountCents
        · have hv : validateAgentOutput
              (.placeBet userId marketId outcome amountCents rawText) ctx
              = .rejected .invalidAmount := by
            simp [validateAgentOutput, hl, hm, hs, ham]
          rw [hv]
          refine ⟨iff_of_false (by decide) (by simp),
            iff_of_false (by decide) ?_, iff_of_false (by decide) ?_,
            iff_of_true rfl ⟨by simp, ⟨market, rfl, hs⟩, ham⟩,
            iff_of_false (by decide) ?_⟩
          · rintro ⟨-, hm2⟩
            cases hm2
          · rintro ⟨-, m, hm2, hs2⟩
            injection hm2 with he
            subst he
            exact hs2 hs
          · rintro ⟨-, -, ⟨h1, h2, h3⟩, -⟩
            rcases ham with h | h | h <;> omega
        · by_cases hlim : ctx.dailyLimitCents < ctx.spentTodayCents + amountCents ∨
              ctx.hourlyLimitCents < ctx.spentThisHourCents + amountCents
          · have hv : validateAgentOutput
                (.placeBet userId marketId outcome amountCents rawText) ctx
                = .rejected .limitExceeded := by
              simp [validateAgentOutput, hl, hm, hs, ham, hlim]
            rw [hv]
            refine ⟨iff_of_false (by decide) (by simp),
              iff_of_false (by decide) ?_, iff_of_false (by decide) ?_,
              iff_of_false (by decide) ?_,
              iff_of_true rfl ⟨by simp, ⟨market, rfl, hs⟩, ?_, hlim⟩⟩
            · rintro ⟨-, hm2⟩
              cases hm2
            · rintro ⟨-, m, hm2, hs2⟩
              injection hm2 with he
              subst he
              exact hs2 hs
            · rintro ⟨-, -, hamc⟩
              exact ham hamc
            · push_neg at ham
              exact ⟨by omega, by omega, by omega⟩
          · have hv : validateAgentOutput
                (.placeBet userId marketId outcome amountCents rawText) ctx
                = .accepted ⟨userId, marketId, outcome, amountCents⟩ := by
              simp [validateAgentOutput, hl, hm, hs, ham, hlim]
            rw [hv]
            refine ⟨iff_of_false (fun h => ValidationVerdict.noConfusion h) (by simp),
              iff_of_false (fun h => ValidationVerdict.noConfusion h) ?_,
              iff_of_false (fun h => ValidationVerdict.noConfusion h) ?_,
              iff_of_false (fun h => ValidationVerdict.noConfusion h) ?_,
              iff_of_false (fun h => ValidationVerdict.noConfusion h) ?_⟩
            · rintro ⟨-, hm2⟩
              cases hm2
            · rintro ⟨-, m, hm2, hs2⟩
              injection hm2 with he
              subst he
              exact hs2 hs
            · rintro ⟨-, -, hamc⟩
              exact ham hamc
            · rintro ⟨-, -, -, hlimc⟩
              exact hlim hlimc
      · have hv : validateAgentOutput
            (.placeBet userId marketId outcome amountCents rawText) ctx
            = .rejected .marketNotActive := by
          simp [validateAgentOutput, hl, hm, hs]
        rw [hv]
        refine ⟨iff_of_false (by decide) (by simp),
          iff_of_false (by decide) ?_,
          iff_of_true rfl ⟨by simp, market, rfl, hs⟩,
          iff_of_false (by decide) ?_, iff_of_false (by decide) ?_⟩
        · rintro ⟨-, hm2⟩
          cases hm2
        · rintro ⟨-, ⟨m, hm2, hs2⟩, -⟩
          injection hm2 with he
          subst he
          exact hs hs2
        · rintro ⟨-, ⟨m, hm2, hs2⟩, -, -⟩
          injection hm2 with he
          subst he
          exact hs hs2

/-- Witness for C5: in a context with no linked account, a place-bet
intent is rejected with ACCOUNT_NOT_CONNECTED even though the market is
unknown and the amount is invalid, and a get-balance intent is rejected
as not actionable here. -/
theorem validateAgentOutput_ordered_checks_witness :
    validateAgentOutput (.placeBet "u1" "m1" Outcome.yes (-100) none)
      ⟨none, fun _ => none, 1, 100000, 500, 0, 500, 0⟩ =
      .rejected .accountNotConnected ∧
    validateAgentOutput (.getBalance "u1" none)
      ⟨none, fun _ => none, 1, 100000, 500, 0, 500, 0⟩ = .rejectedNotPlaceBet := by
  have h := validateAgentOutput_ordered_checks "u1" "m1" Outcome.yes (-100) none
    ⟨none, fun _ => none, 1, 100000, 500, 0, 500, 0⟩
  exact ⟨(h.2.1).mpr rfl, h.1 (.getBalance "u1" none) rfl⟩

/-- C6: with the account linked and the market active, a zero or negative
amount is rejected with INVALID_AMOUNT; for a positive amount within the
order-size bounds, the limit check fails exactly when the daily or the
hourly window would be exceeded; an amount exactly equal to the remaining
daily budget is accepted when the hourly window allows it, and an amount
one cent over the remaining daily budget is rejected with
LIMIT_EXCEEDED. -/
theorem validateAgentOutput_amount_limits (userId marketId : String) (outcome : Outcome)
    (amountCents : Int) (rawText : Option String) (ctx : ValidationContext)
    (acct : String) (market : MarketRef)
    (hl : ctx.linkedAccountId = some acct)
    (hm : ctx.marketLookup marketId = some market)
    (hs : market.status = MarketStatus.active) :
    (amountCents ≤ 0 →
      validateAgentOutput (.placeBet userId marketId outcome amountCents rawText) ctx =
        .rejected .invalidAmount) ∧
    (0 < amountCents → ctx.minOrderCents ≤ amountCents → amountCents ≤ ctx.maxOrderCents →
      ((validateAgentOutput (.placeBet userId marketId outcome amountCents rawText) ctx =
          .rejected .limitExceeded ↔
        (ctx.dailyLimitCents < ctx.spentTodayCents + amountCents ∨
          ctx.hourlyLimitCents < ctx.spentThisHourCents + amountCents)) ∧
      (ctx.spentTodayCents + amountCents = ctx.dailyLimitCents →
        ctx.spentThisHourCents + amountCents ≤ ctx.hourlyLimitCents →
        validateAgentOutput (.placeBet userId marketId outcome amountCents rawText) ctx =
          .accepted ⟨userId, marketId, outcome, amountCents⟩) ∧
      (ctx.spentTodayCents + amountCents = ctx.dailyLimitCents + 1 →
        validateAgentOutput (.placeBet userId marketId outcome amountCents rawText) ctx =
          .rejected .limitExceeded))) := by
  constructor
  · intro hneg
    have ham : amountCents ≤ 0 ∨ amountCents < ctx.minOrderCents ∨
        ctx.maxOrderCents < amountCents := Or.inl hneg
    simp [validateAgentOutput, hl, hm, hs, ham]
  · intro hpos hmin hmax
    have hamf : ¬(amountCents ≤ 0 ∨ amountCents < ctx.minOrderCents ∨
        ctx.maxOrderCents < amountCents) := by
      rintro (h | h | h) <;> omega
    refine ⟨?_, ?_, ?_⟩
    · by_cases hlim : ctx.dailyLimitCents < ctx.spentTodayCents + amountCents ∨
          ctx.hourlyLimitCents < ctx.spentThisHourCents + amountCents
      · have hv : validateAgentOutput
            (.placeBet userId marketId outcome amountCents rawText) ctx
            = .rejected .limitExceeded := by
          simp [validateAgentOutput, hl, hm, hs, hamf, hlim]
        rw [hv]
        exact iff_of_true rfl hlim
      · have hv : validateAgentOutput
            (.placeBet userId marketId outcome amountCents rawText) ctx
            = .accepted ⟨userId, marketId, outcome, amountCents⟩ := by
          simp [validateAgentOutput, hl, hm, hs, hamf, hlim]
        rw [hv]
        exact iff_of_false (fun h => ValidationVerdict.noConfusion h) hlim
    · intro hday hhour
      have hlim : ¬(ctx.dailyLimitCents < ctx.spentTodayCents + amountCents ∨
          ctx.hourlyLimitCents < ctx.spentThisHourCents + amountCents) := by
        rintro (h | h) <;> omega
      simp [validateAgentOutput, hl, hm, hs, hamf, hlim]
    · intro hday
      have hlim : ctx.dailyLimitCents < ctx.spentTodayCents + amountCents ∨
          ctx.hourlyLimitCents < ctx.spentThisHourCents + amountCents := Or.inl (by omega)
      simp [validateAgentOutput, hl, hm, hs, hamf, hlim]

/-- Witness for C6 on a concrete context with 500 daily limit, 200 spent
today: 0 and -100 cents are INVALID_AMOUNT, 300 cents (exactly the
remaining budget) is accepted, and 301 cents is LIMIT_EXCEEDED. -/
theorem validateAgentOutput_amount_limits_witness :
    validateAgentOutput (.placeBet "u1" "m1" Outcome.yes 0 none)
      ⟨some "0xabc", fun _ => some ⟨"m1", .active⟩, 1, 100000, 500, 200, 500, 0⟩ =
      .rejected .invalidAmount ∧
    validateAgentOutput (.placeBet "u1" "m1" Outcome.yes (-100) none)
      ⟨some "0xabc", fun _ => some ⟨"m1", .active⟩, 1, 100000, 500, 200, 500, 0⟩ =
      .rejected .invalidAmount ∧
    validateAgentOutput (.placeBet "u1" "m1" Outcome.yes 300 none)
      ⟨some "0xabc", fun _ => some ⟨"m1", .active⟩, 1, 100000, 500, 200, 500, 0⟩ =
      .accepted ⟨"u1", "m1", Outcome.yes, 300⟩ ∧
    validateAgentOutput (.placeBet "u1" "m1" Outcome.yes 301 none)
      ⟨some "0xabc", fun _ => some ⟨"m1", .active⟩, 1, 100000, 500, 200, 500, 0⟩ =
      .rejected .limitExceeded := by
  refine ⟨?_, ?_, ?_, ?_⟩
  · exact (validateAgentOutput_amount_limits "u1" "m1" Outcome.yes 0 none
      ⟨some "0xabc", fun _ => some ⟨"m1", .active⟩, 1, 100000, 500, 200, 500, 0⟩
      "0xabc" ⟨"m1", .active⟩ rfl rfl rfl).1 (by decide)
  · exact (validateAgentOutput_amount_limits "u1" "m1" Outcome.yes (-100) none
      ⟨some "0xabc", fun _ => some ⟨"m1", .active⟩, 1, 100000, 500, 200, 500, 0⟩
      "0xabc" ⟨"m1", .active⟩ rfl rfl rfl).1 (by decide)
  · exact ((validateAgentOutput_amount_limits "u1" "m1" Outcome.yes 300 none
      ⟨some "0xabc", fun _ => some ⟨"m1", .active⟩, 1, 100000, 500, 200, 500, 0⟩
      "0xabc" ⟨"m1", .active⟩ rfl rfl rfl).2 (by decide) (by decide) (by decide)).2.1
      (by decide) (by decide)
  · exact ((validateAgentOutput_amount_limits "u1" "m1" Outcome.yes 301 none
      ⟨some "0xabc", fun _ => some ⟨"m1", .active⟩, 1, 100000, 500, 200, 500, 0⟩
      "0xabc" ⟨"m1", .active⟩ rfl rfl rfl).2 (by decide) (by decide) (by decide)).2.2
      (by decide)

end Polybot
